import Mathlib

/-!
Shallow embedding of the Tennis ATP API backend (src/app.py).

Modelling conventions:
* A pandas `DataFrame` is modelled as a typed row list together with its column-name
  list (`PDF`); the column list is what a `merge` consults when it resolves its
  `left_on` / `right_on` keys, and a missing key column is a `KeyError` — exactly as
  in pandas.  `pd.DataFrame()` (the value produced when no fact partition is found)
  has an empty column list.
* `merge(..., how="left")` against a dimension table is `leftMergeRows`: every left
  row is kept; a missing dimension key yields `none` fields (pandas NaN), and a
  duplicated dimension key multiplies the row, as in pandas.
* Dates are modelled as abstract day ordinals (`Nat`): the queries only compare and
  sort dates, and the `str[:10]` day truncation used for display is the identity on
  day ordinals.
* pandas NaN string cells are `Option String`; `NaN == s` is `false` and
  `.str.contains(q, na=False)` is `false` on NaN, matching `optContainsCI`.
* `Series.str.contains(q, case=False)` is modelled as case-insensitive literal
  substring containment (`strContainsCI`), the documented matching policy.  The
  actual pandas call leaves `regex=True`, which diverges from this policy on query
  strings containing regex metacharacters; that divergence is examined separately.
* Python `round(x, 1)` is modelled as exact half-even rounding to one decimal
  (`pyRound1`).
* `sort_values("Date", ascending=False)` is modelled as a comparison sort by the
  date key (`sortByDateDesc`).
* `datetime.now().isoformat()` is modelled by threading an ambient `now : String`
  into each handler; it is used only for the `generated_at` response field.
-/

/-- Row of `dim_players.parquet`: `player_id`, `player_name`. -/
structure Player where
  player_id : Int
  player_name : String
deriving DecidableEq, Repr

/-- Row of `dim_tournaments.parquet` (the columns the app selects). -/
structure Tournament where
  tournament_id : Int
  tournament : String
  surface : String
  series : String
deriving DecidableEq, Repr

/-- Row of one `fact_matches/year=Y/month=M/data.parquet` file, before the loader
stamps the partition key onto it. -/
structure RawMatch where
  p1_id : Int
  p2_id : Int
  winner_id : Int
  tournament_id : Int
  date : Nat
  round : String
  score : String
deriving DecidableEq, Repr

/-- A fact row after the loader has stamped `year` and `month` from the partition
path (`df["year"] = year; df["month"] = month`). -/
structure FactRow extends RawMatch where
  year : Int
  month : Int
deriving DecidableEq, Repr

/-- A row of the enriched view `fact_plus`: the fact row plus the denormalized
fields attached by the four left merges.  A `none` means the dimension lookup
missed (pandas NaN). -/
structure Enriched extends FactRow where
  p1_name : Option String
  p2_name : Option String
  winner_name : Option String
  tournament : Option String
  surface : Option String
  series : Option String
deriving DecidableEq, Repr

/-- A pandas DataFrame: its column names plus its (typed) rows.  `pd.DataFrame()`
is `⟨[], []⟩`. -/
structure PDF (ρ : Type) where
  cols : List String
  rows : List ρ

/-- The right-hand matches a left-join pairs one left row with: each right row
whose key equals `k`, or a single `none` (NaN fields) when no right row does. -/
def mergeCell (right : List β) (rkey : β → Int) (k : Int) : List (Option β) :=
  match right.filter (fun b => rkey b == k) with
  | [] => [none]
  | b :: bs => (b :: bs).map some

/-- Row-level semantics of `left.merge(right, left_on=…, right_on=…, how="left")`:
every left row is kept; it is paired with each right row whose key matches, or
with `none` when no right row matches. -/
def leftMergeRows (left : List α) (right : List β) (key : α → Int) (rkey : β → Int)
    (mk : α → Option β → γ) : List γ :=
  left.flatMap fun a => (mergeCell right rkey (key a)).map (mk a)

/-- Semantics of `DataFrame.merge(..., how="left")`: pandas first resolves the key columns and
raises `KeyError` when one is absent from the corresponding frame; otherwise the
merged frame carries both frames' columns and the left-joined rows. -/
def pdMergeLeft (l : PDF α) (leftOn : String) (r : PDF β) (rightOn : String)
    (key : α → Int) (rkey : β → Int) (mk : α → Option β → γ) : Except String (PDF γ) :=
  if leftOn ∈ l.cols then
    if rightOn ∈ r.cols then
      Except.ok ⟨l.cols ++ r.cols, leftMergeRows l.rows r.rows key rkey mk⟩
    else Except.error ("KeyError: " ++ rightOn)
  else Except.error ("KeyError: " ++ leftOn)

/-- Semantics of `pd.concat(fact_parts, ignore_index=True) if fact_parts else pd.DataFrame()`:
an empty part list yields the empty frame with no columns. -/
def pdConcat (parts : List (PDF ρ)) : PDF ρ :=
  match parts with
  | [] => ⟨[], []⟩
  | p :: ps => ⟨p.cols, (p :: ps).flatMap (fun q => q.rows)⟩

/-- Columns of a stamped fact partition frame: the parquet columns plus the
`year`/`month` partition tags added by the loader. -/
def factCols : List String :=
  ["p1_id", "p2_id", "winner_id", "tournament_id", "Date", "Round", "Score",
   "year", "month"]

/-- Stamp one discovered partition `(year, month, rows)` with its partition key. -/
def stampPart (part : Int × Int × List RawMatch) : List FactRow :=
  part.2.2.map fun r => { toRawMatch := r, year := part.1, month := part.2.1 }

/-- The loader `load_data`: concatenate the discovered fact partitions (an empty set of
partitions yields `pd.DataFrame()`), then build `fact_plus` by the four left
merges — p1, p2 and winner against `dim_players` (renamed copies), and the
tournament dimension on `tournament_id`. -/
def load_data (parts : List (Int × Int × List RawMatch)) (dim_players : List Player)
    (dim_tournaments : List Tournament) : Except String (PDF Enriched) := do
  let fact_matches : PDF FactRow := pdConcat (parts.map fun pt => ⟨factCols, stampPart pt⟩)
  let m1 : PDF Enriched ←
    pdMergeLeft fact_matches "p1_id" ⟨["p1_player_id", "p1_name"], dim_players⟩
    "p1_player_id" (fun f => f.p1_id) (fun p => p.player_id)
    (fun f p =>
      ({ toFactRow := f
         p1_name := p.map (fun q => q.player_name)
         p2_name := none
         winner_name := none
         tournament := none
         surface := none
         series := none } : Enriched))
  let m2 : PDF Enriched ←
    pdMergeLeft m1 "p2_id" ⟨["p2_player_id", "p2_name"], dim_players⟩
    "p2_player_id" (fun e => e.p2_id) (fun p => p.player_id)
    (fun e p => { e with p2_name := p.map (fun q => q.player_name) })
  let m3 : PDF Enriched ←
    pdMergeLeft m2 "winner_id" ⟨["w_player_id", "winner_name"], dim_players⟩
    "w_player_id" (fun e => e.winner_id) (fun p => p.player_id)
    (fun e p => { e with winner_name := p.map (fun q => q.player_name) })
  pdMergeLeft m3 "tournament_id"
    ⟨["tournament_id", "Tournament", "Surface", "Series"], dim_tournaments⟩
    "tournament_id" (fun e => e.tournament_id) (fun t => t.tournament_id)
    (fun e t =>
      { e with
        tournament := t.map (fun q => q.tournament)
        surface := t.map (fun q => q.surface)
        series := t.map (fun q => q.series) })

/-- Left-to-right replacement of every occurrence of `%20` by a space over a
character list: the semantics of `name.replace("%20", " ")`. -/
def decodeSpaces : List Char → List Char
  | '%' :: '2' :: '0' :: t => ' ' :: decodeSpaces t
  | c :: t => c :: decodeSpaces t
  | [] => []

/-- URL-decode step applied by each handler: `name.replace("%20", " ")`. -/
def urlDecode (s : String) : String := ⟨decodeSpaces s.toList⟩

/-- Containment of `needle` in `hay` over character lists. -/
def subAt (needle : List Char) : List Char → Bool
  | [] => needle.isEmpty
  | c :: t => needle.isPrefixOf (c :: t) || subAt needle t

/-- Case-insensitive literal substring containment: the documented semantics of
`name.str.contains(query, case=False)` for a metacharacter-free query. -/
def strContainsCI (hay needle : String) : Bool :=
  subAt (needle.toList.map Char.toLower) (hay.toList.map Char.toLower)

/-- The same on a NaN-able cell: `str.contains(query, case=False, na=False)`. -/
def optContainsCI (cell : Option String) (needle : String) : Bool :=
  match cell with
  | none => false
  | some s => strContainsCI s needle

/-- Lowercase a string characterwise (Python `str.lower()` on ASCII names). -/
def lowerStr (s : String) : String := ⟨s.toList.map Char.toLower⟩

/-- Round a rational to the nearest integer, ties to even (Python `round`). -/
def roundHalfEven (q : ℚ) : ℤ :=
  let f : ℤ := Rat.floor q
  let r : ℚ := q - (f : ℚ)
  if r < 1 / 2 then f
  else if 1 / 2 < r then f + 1
  else if f % 2 = 0 then f else f + 1

/-- Python `round(x, 1)`: round to one decimal place, ties to even. -/
def pyRound1 (q : ℚ) : ℚ := (roundHalfEven (q * 10) : ℚ) / 10

/-- Sort rows by `Date` descending: `sort_values("Date", ascending=False)`. -/
def sortByDateDesc (l : List Enriched) : List Enriched :=
  List.insertionSort (fun a b => b.date ≤ a.date) l

/-- Outcome of an API handler: a JSON payload, or a 404 with an error message. -/
inductive ApiResult (α : Type) where
  | ok : α → ApiResult α
  | notFound : String → ApiResult α
deriving DecidableEq, Repr

/-- One win/loss line of a career record. -/
structure SurfaceStat where
  «matches» : Nat
  wins : Nat
  losses : Nat
  win_rate : ℚ
deriving DecidableEq, Repr

/-- The `career` object of a `playerStats` response. -/
structure Career where
  total_matches : Nat
  wins : Nat
  losses : Nat
  win_rate : ℚ
deriving DecidableEq, Repr

/-- A `playerStats` success response. -/
structure PlayerStatsOk where
  player : String
  career : Career
  by_surface : List (String × SurfaceStat)
  generated_at : String
deriving DecidableEq, Repr

/-- The match rows aggregated for a resolved player name, each tagged with its
`is_win` flag: rows whose `p1_name` equals the name (win iff `winner_id == p1_id`)
followed by rows whose `p2_name` equals the name (win iff `winner_id == p2_id`),
as built by `pd.concat([p1_matches, p2_matches])`. -/
def collectMatches (fact_plus : List Enriched) (player_name : String) :
    List (Enriched × Bool) :=
  ((fact_plus.filter fun r => r.p1_name == some player_name).map
      fun r => (r, r.winner_id == r.p1_id)) ++
  ((fact_plus.filter fun r => r.p2_name == some player_name).map
      fun r => (r, r.winner_id == r.p2_id))

/-- The fixed surface list the stats handler iterates over. -/
def surfaceList : List String := ["Hard", "Clay", "Grass"]

/-- The surface breakdown loop of `player_stats`: for each surface in the fixed
list, the matching rows are counted and a stat entry keyed by the lowercased
surface is emitted only when at least one row matched. -/
def surfaceBreakdown (all_matches : List (Enriched × Bool)) :
    List (String × SurfaceStat) :=
  surfaceList.filterMap fun s =>
    let s_matches := all_matches.filter fun mw => mw.1.surface == some s
    if s_matches.length > 0 then
      let s_wins := (s_matches.filter fun mw => mw.2).length
      some (lowerStr s,
        { «matches» := s_matches.length
          wins := s_wins
          losses := s_matches.length - s_wins
          win_rate := pyRound1 ((s_wins : ℚ) / (s_matches.length : ℚ) * 100) })
    else none

/-- Handler of `GET /api/players/<name>/stats`: resolve the name against `dim_players` by
case-insensitive containment taking the first hit, collect the resolved name's
matches, and aggregate career and per-surface totals. -/
def player_stats (dim_players : List Player) (fact_plus : List Enriched)
    (name now : String) : ApiResult PlayerStatsOk :=
  let player_name := urlDecode name
  match dim_players.filter (fun p => strContainsCI p.player_name player_name) with
  | [] => ApiResult.notFound ("Player " ++ player_name ++ " not found")
  | m :: _ =>
    let resolved := m.player_name
    let all_matches := collectMatches fact_plus resolved
    match all_matches with
    | [] => ApiResult.notFound "No matches found for player"
    | _ :: _ =>
      let wins := (all_matches.filter fun mw => mw.2).length
      let total := all_matches.length
      ApiResult.ok
        { player := resolved
          career :=
            { total_matches := total
              wins := wins
              losses := total - wins
              win_rate := pyRound1 ((wins : ℚ) / (total : ℚ) * 100) }
          by_surface := surfaceBreakdown all_matches
          generated_at := now }

/-- One row of the `recent_matches` array of a head-to-head response. -/
structure RecentMatch where
  date : Nat
  tournament : Option String
  round : String
  surface : Option String
  winner_name : Option String
  score : String
deriving DecidableEq, Repr

/-- A head-to-head success response. -/
structure H2HOk where
  player_1 : Option String
  player_2 : Option String
  p1_wins : Nat
  p2_wins : Nat
  total : Nat
  recent_matches : List RecentMatch
  generated_at : String
deriving DecidableEq, Repr

/-- Handler of `GET /api/h2h/<player1>/<player2>`: filter `fact_plus` by the four-way name
containment test, sort by date descending, take the canonical display names from
the latest match, and tally wins by comparing `winner_name` to each of them. -/
def head_to_head (fact_plus : List Enriched) (player1 player2 now : String) :
    ApiResult H2HOk :=
  let p1 := urlDecode player1
  let p2 := urlDecode player2
  let h2h := sortByDateDesc (fact_plus.filter fun r =>
    (optContainsCI r.p1_name p1 && optContainsCI r.p2_name p2) ||
    (optContainsCI r.p1_name p2 && optContainsCI r.p2_name p1))
  match h2h with
  | [] => ApiResult.notFound "No head-to-head matches found"
  | first :: rest =>
    let sorted := first :: rest
    let actual_p1 := first.p1_name
    let actual_p2 := first.p2_name
    ApiResult.ok
      { player_1 := actual_p1
        player_2 := actual_p2
        p1_wins := (sorted.filter fun r => r.winner_name == actual_p1).length
        p2_wins := (sorted.filter fun r => r.winner_name == actual_p2).length
        total := sorted.length
        recent_matches := (sorted.take 10).map fun r =>
          { date := r.date
            tournament := r.tournament
            round := r.round
            surface := r.surface
            winner_name := r.winner_name
            score := r.score }
        generated_at := now }

/-- One row of the `recent_champions` array: the day-truncated date (column
renamed `year`), the champion's name, and the score. -/
structure ChampionRow where
  year : Nat
  champion : Option String
  score : String
deriving DecidableEq, Repr

/-- Projection of a final's row to its champion record. -/
def champRecord (r : Enriched) : ChampionRow :=
  { year := r.date, champion := r.winner_name, score := r.score }

/-- A tournament-details success response. -/
structure TournamentOk where
  tournament : Option String
  surface : Option String
  series : Option String
  total_matches : Nat
  recent_champions : List ChampionRow
  generated_at : String
deriving DecidableEq, Repr

/-- Handler of `GET /api/tournaments/<name>`: filter `fact_plus` by tournament-name
containment, report surface/series from the first matching row, and list the 10
most recent rows whose `Round` is "The Final" as champions. -/
def tournament_details (fact_plus : List Enriched) (name now : String) :
    ApiResult TournamentOk :=
  let tournament_name := urlDecode name
  match fact_plus.filter (fun r => optContainsCI r.tournament tournament_name) with
  | [] => ApiResult.notFound "Tournament not found"
  | first :: rest =>
    let tmatches := first :: rest
    let finals := sortByDateDesc (tmatches.filter fun r => r.round == "The Final")
    ApiResult.ok
      { tournament := first.tournament
        surface := first.surface
        series := first.series
        total_matches := tmatches.length
        recent_champions := (finals.take 10).map champRecord
        generated_at := now }

/-! Shared lemmas about the merge and filter machinery. -/

/-- When the dimension keys are unique, a key filter returns at most one row. -/
theorem length_filter_key_le_one {β : Type} (right : List β) (rkey : β → Int)
    (h : (right.map rkey).Nodup) (k : Int) :
    (right.filter fun b => rkey b == k).length ≤ 1 := by
  induction right with
  | nil => simp
  | cons b t ih =>
    simp only [List.map_cons, List.nodup_cons] at h
    obtain ⟨hb, ht⟩ := h
    rw [List.filter_cons]
    by_cases hk : (rkey b == k) = true
    · have hnil : t.filter (fun x => rkey x == k) = [] := by
        rw [List.filter_eq_nil_iff]
        intro x hx hxk
        exact hb (List.mem_map.mpr ⟨x, hx,
          (beq_iff_eq.mp hxk).trans (beq_iff_eq.mp hk).symm⟩)
      simp [hk, hnil]
    · simp only [hk, if_false]
      exact ih ht

/-- A key filter that returns at most one row makes the merge cell a singleton:
either the unique match or the `none` placeholder. -/
theorem mergeCell_length {β : Type} (right : List β) (rkey : β → Int) (k : Int)
    (h : (right.filter fun b => rkey b == k).length ≤ 1) :
    (mergeCell right rkey k).length = 1 := by
  unfold mergeCell
  cases hf : List.filter (fun b => rkey b == k) right with
  | nil => rfl
  | cons b bs =>
    rw [hf] at h
    have hbs : bs = [] := by
      cases bs with
      | nil => rfl
      | cons c cs => simp at h
    subst hbs
    rfl

/-- A left merge whose right side never matches a key more than once preserves
the left row count: each left row contributes exactly one merged row. -/
theorem leftMergeRows_length {α β γ : Type} (left : List α) (right : List β)
    (key : α → Int) (rkey : β → Int) (mk : α → Option β → γ)
    (h : ∀ a, (right.filter fun b => rkey b == key a).length ≤ 1) :
    (leftMergeRows left right key rkey mk).length = left.length := by
  induction left with
  | nil => rfl
  | cons a t ih =>
    simp only [leftMergeRows, List.flatMap_cons] at ih ⊢
    rw [List.length_append, List.length_map, mergeCell_length right rkey (key a) (h a),
      ih, List.length_cons, Nat.add_comm]

/-- Counting two disjoint predicates over one list is bounded by its length. -/
theorem length_filter_add_length_filter_le {α : Type} (l : List α) (p q : α → Bool)
    (h : ∀ x, ¬(p x = true ∧ q x = true)) :
    (l.filter p).length + (l.filter q).length ≤ l.length := by
  induction l with
  | nil => simp
  | cons a t ih =>
    rw [List.filter_cons, List.filter_cons]
    cases hp : p a <;> cases hq : q a
    · simp [hp, hq]
      omega
    · simp [hp, hq]
      omega
    · simp [hp, hq]
      omega
    · exact absurd ⟨hp, hq⟩ (h a)

/-! C4 — loading with an empty partition set. -/

/-- C4: loading with an empty partition set crashes instead of producing a valid
zero-row snapshot: `pd.concat(fact_parts) if fact_parts else pd.DataFrame()`
yields a frame with no columns, and the first merge's `left_on="p1_id"` lookup
raises `KeyError: p1_id`, aborting `load_data` before any snapshot exists. -/
theorem load_data_empty_partitions_key_error (dim_players : List Player)
    (dim_tournaments : List Tournament) :
    load_data [] dim_players dim_tournaments = Except.error "KeyError: p1_id" := rfl

/-! C1 — enrichment preserves the fact row count. -/

/-- C1: for a non-empty partition set and dimension tables with unique
identifiers, `load_data` succeeds and the enriched snapshot produced by the four
left merges has exactly as many rows as the concatenated input fact table; no
fact row is dropped regardless of missed dimension lookups. -/
theorem enrichment_preserves_row_count
    (parts : List (Int × Int × List RawMatch)) (dim_players : List Player)
    (dim_tournaments : List Tournament)
    (hne : parts ≠ [])
    (hP : (dim_players.map fun p => p.player_id).Nodup)
    (hT : (dim_tournaments.map fun t => t.tournament_id).Nodup) :
    ∃ df, load_data parts dim_players dim_tournaments = Except.ok df ∧
      df.rows.length = (parts.flatMap stampPart).length := by
  cases parts with
  | nil => exact absurd rfl hne
  | cons q qs =>
    refine ⟨_, rfl, ?_⟩
    rw [leftMergeRows_length _ _ _ _ _
        (fun a => length_filter_key_le_one dim_tournaments _ hT _)]
    rw [leftMergeRows_length _ _ _ _ _
        (fun a => length_filter_key_le_one dim_players _ hP _)]
    rw [leftMergeRows_length _ _ _ _ _
        (fun a => length_filter_key_le_one dim_players _ hP _)]
    rw [leftMergeRows_length _ _ _ _ _
        (fun a => length_filter_key_le_one dim_players _ hP _)]
    show ((List.map (fun pt => (⟨factCols, stampPart pt⟩ : PDF FactRow)) (q :: qs)).flatMap
        (fun d => d.rows)).length = _
    rw [List.flatMap_map]

/-- Concrete dataset exercising C1: two partitions, one fact row with a missing
player key and a missing tournament key. -/
def c1Parts : List (Int × Int × List RawMatch) :=
  [(2020, 6, [⟨1, 2, 1, 7, 100, "The Final", "6-0 6-0 6-0"⟩]),
   (2021, 1, [⟨1, 99, 99, 55, 200, "Quarterfinals", "7-6 7-6"⟩])]

/-- Player dimension used by concrete examples. -/
def c1Players : List Player := [⟨1, "Rafael Nadal"⟩, ⟨2, "Roger Federer"⟩]

/-- Tournament dimension used by concrete examples. -/
def c1Tournaments : List Tournament := [⟨7, "Roland Garros", "Clay", "Grand Slam"⟩]

/-- Witness for C1 at a concrete dataset with dimension misses: the two loaded
fact rows yield exactly two enriched rows. -/
theorem enrichment_preserves_row_count_witness :
    c1Parts ≠ [] ∧ ((c1Players.map fun p => p.player_id).Nodup) ∧
    ((c1Tournaments.map fun t => t.tournament_id).Nodup) ∧
    ∃ df, load_data c1Parts c1Players c1Tournaments = Except.ok df ∧
      df.rows.length = (c1Parts.flatMap stampPart).length :=
  ⟨by decide, by decide, by decide,
    enrichment_preserves_row_count c1Parts c1Players c1Tournaments
      (by decide) (by decide) (by decide)⟩

/-! Concrete datasets shared by the query-level examples. -/

/-- Enriched snapshot built by `load_data` from the concrete dataset: one fully
resolved Nadal–Federer final plus one row with dimension misses. -/
def exampleFP : List Enriched :=
  match load_data c1Parts c1Players c1Tournaments with
  | .ok df => df.rows
  | .error _ => []

/-! C3 — career arithmetic of `playerStats`. -/

/-- C3: every successful `playerStats` career record satisfies
`wins + losses = total_matches` and `win_rate = round(wins / total * 100, 1)`. -/
theorem player_stats_career_arithmetic (dim_players : List Player)
    (fact_plus : List Enriched) (name now : String) (res : PlayerStatsOk)
    (h : player_stats dim_players fact_plus name now = ApiResult.ok res) :
    res.career.wins + res.career.losses = res.career.total_matches ∧
    res.career.win_rate =
      pyRound1 ((res.career.wins : ℚ) / (res.career.total_matches : ℚ) * 100) := by
  simp only [player_stats] at h
  cases hfil : List.filter (fun p => strContainsCI p.player_name (urlDecode name))
      dim_players with
  | nil =>
    simp only [hfil] at h
    exact (ApiResult.noConfusion h)
  | cons m tail =>
    simp only [hfil] at h
    cases hcol : collectMatches fact_plus m.player_name with
    | nil =>
      simp only [hcol] at h
      exact (ApiResult.noConfusion h)
    | cons x xs =>
      simp only [hcol] at h
      injection h with h
      subst h
      refine ⟨?_, rfl⟩
      have hle := List.length_filter_le (fun mw => mw.2) (x :: xs)
      dsimp only
      omega

/-- Witness for C3 on the concrete snapshot. -/
theorem player_stats_career_arithmetic_witness :
    ∃ res, player_stats c1Players exampleFP "nadal" "t0" = ApiResult.ok res ∧
      (res.career.wins + res.career.losses = res.career.total_matches ∧
       res.career.win_rate =
         pyRound1 ((res.career.wins : ℚ) / (res.career.total_matches : ℚ) * 100)) := by
  refine ⟨_, rfl, ?_⟩
  exact player_stats_career_arithmetic c1Players exampleFP "nadal" "t0" _ rfl

/-! C10 — the two NotFound causes of `playerStats`. -/

/-- C10: `playerStats` answers 404 NotFound both when the name resolves to no
player row of the dimension and when it resolves to a player whose collected
match list is empty — an existing but matchless player also gets NotFound. -/
theorem player_stats_not_found_two_causes (dim_players : List Player)
    (fact_plus : List Enriched) (name now : String) :
    (List.filter (fun p => strContainsCI p.player_name (urlDecode name)) dim_players = [] →
      ∃ msg, player_stats dim_players fact_plus name now = ApiResult.notFound msg) ∧
    (∀ m tail,
      List.filter (fun p => strContainsCI p.player_name (urlDecode name)) dim_players =
        m :: tail →
      collectMatches fact_plus m.player_name = [] →
      ∃ msg, player_stats dim_players fact_plus name now = ApiResult.notFound msg) := by
  constructor
  · intro hfil
    refine ⟨"Player " ++ urlDecode name ++ " not found", ?_⟩
    simp only [player_stats, hfil]
  · intro m tail hfil hcol
    refine ⟨"No matches found for player", ?_⟩
    simp only [player_stats, hfil, hcol]

/-- Player dimension with a player who never appears in the fact table. -/
def c10Dim : List Player := [⟨42, "Solo Player"⟩]

/-- Witness for C10: the resolvable but matchless player gets NotFound. -/
theorem player_stats_not_found_two_causes_witness :
    (List.filter (fun p => strContainsCI p.player_name (urlDecode "solo")) c10Dim =
      (⟨42, "Solo Player"⟩ : Player) :: []) ∧
    collectMatches [] "Solo Player" = [] ∧
    ∃ msg, player_stats c10Dim [] "solo" "t0" = ApiResult.notFound msg :=
  ⟨by decide, rfl,
    (player_stats_not_found_two_causes c10Dim [] "solo" "t0").2 ⟨42, "Solo Player"⟩ []
      (by decide) rfl⟩

/-! C2 — which matches `playerStats` aggregates, and win attribution. -/

/-- Player dimension with a duplicated name: two distinct players called
"Ann Lee"; the resolver picks the first (id 1). -/
def c2Dim : List Player := [⟨1, "Ann Lee"⟩, ⟨2, "Ann Lee"⟩, ⟨3, "Bob"⟩]

/-- One partition whose single match is played by the second "Ann Lee" (id 2)
against Bob (id 3) and won by id 2. -/
def c2Parts : List (Int × Int × List RawMatch) :=
  [(2020, 1, [⟨2, 3, 2, 7, 50, "1st Round", "6-4 6-4"⟩])]

/-- Enriched snapshot of the duplicate-name dataset. -/
def c2FP : List Enriched :=
  match load_data c2Parts c2Dim c1Tournaments with
  | .ok df => df.rows
  | .error _ => []

/-- Counterexample to C2 as stated: the name "ann" resolves to player id 1, no
enriched match features id 1 as `p1` or `p2`, yet `playerStats` aggregates one
match (the one played by the *other* Ann Lee, id 2), because collection compares
the denormalized name columns, not the resolved player's id. -/
theorem player_stats_counts_other_player_with_same_name :
    (List.filter (fun p => strContainsCI p.player_name (urlDecode "ann")) c2Dim).head? =
      some ⟨1, "Ann Lee"⟩ ∧
    (c2FP.filter fun r => r.p1_id == 1 || r.p2_id == 1) = [] ∧
    ¬ (∀ res, player_stats c2Dim c2FP "ann" "t0" = ApiResult.ok res →
        res.career.total_matches =
          (c2FP.filter fun r => r.p1_id == 1 || r.p2_id == 1).length) := by
  refine ⟨by decide, by decide, fun hcl => ?_⟩
  exact absurd (hcl _ rfl) (by decide)

/-- C2 (amended): the aggregated multiset is selected by *name* equality on each
side — a pair `(r, w)` is collected for the resolved player's name exactly when
`r.p1_name` or `r.p2_name` equals that name, with the win flag computed from the
id on the matching side (`winner_id == p1_id`, resp. `winner_id == p2_id`) — and
a successful `playerStats` reports that name together with the size and win
count of that collection. -/
theorem player_stats_collection_characterization (dim_players : List Player)
    (fact_plus : List Enriched) (name now : String) (m : Player) (tail : List Player)
    (hres : List.filter (fun p => strContainsCI p.player_name (urlDecode name))
      dim_players = m :: tail) :
    (∀ r w, (r, w) ∈ collectMatches fact_plus m.player_name ↔
      (r ∈ fact_plus ∧
        ((r.p1_name = some m.player_name ∧ w = (r.winner_id == r.p1_id)) ∨
         (r.p2_name = some m.player_name ∧ w = (r.winner_id == r.p2_id))))) ∧
    (∀ res, player_stats dim_players fact_plus name now = ApiResult.ok res →
      res.player = m.player_name ∧
      res.career.total_matches = (collectMatches fact_plus m.player_name).length ∧
      res.career.wins =
        ((collectMatches fact_plus m.player_name).filter fun mw => mw.2).length) := by
  constructor
  · intro r w
    simp only [collectMatches, List.mem_append, List.mem_map, List.mem_filter,
      Prod.mk.injEq]
    constructor
    · rintro (⟨a, ⟨ha, h1⟩, rfl, rfl⟩ | ⟨a, ⟨ha, h2⟩, rfl, rfl⟩)
      · exact ⟨ha, Or.inl ⟨beq_iff_eq.mp h1, rfl⟩⟩
      · exact ⟨ha, Or.inr ⟨beq_iff_eq.mp h2, rfl⟩⟩
    · rintro ⟨hr, (⟨h1, rfl⟩ | ⟨h2, rfl⟩)⟩
      · exact Or.inl ⟨r, ⟨hr, beq_iff_eq.mpr h1⟩, rfl, rfl⟩
      · exact Or.inr ⟨r, ⟨hr, beq_iff_eq.mpr h2⟩, rfl, rfl⟩
  · intro res h
    simp only [player_stats, hres] at h
    cases hcol : collectMatches fact_plus m.player_name with
    | nil =>
      simp only [hcol] at h
      exact (ApiResult.noConfusion h)
    | cons x xs =>
      simp only [hcol] at h
      injection h with h
      subst h
      exact ⟨rfl, rfl, rfl⟩

/-- Witness for the amended C2 on the duplicate-name dataset. -/
theorem player_stats_collection_characterization_witness :
    (List.filter (fun p => strContainsCI p.player_name (urlDecode "ann")) c2Dim =
      (⟨1, "Ann Lee"⟩ : Player) :: [⟨2, "Ann Lee"⟩]) ∧
    ((∀ r w, (r, w) ∈ collectMatches c2FP (Player.mk 1 "Ann Lee").player_name ↔
      (r ∈ c2FP ∧
        ((r.p1_name = some (Player.mk 1 "Ann Lee").player_name ∧
            w = (r.winner_id == r.p1_id)) ∨
         (r.p2_name = some (Player.mk 1 "Ann Lee").player_name ∧
            w = (r.winner_id == r.p2_id))))) ∧
    (∀ res, player_stats c2Dim c2FP "ann" "t0" = ApiResult.ok res →
      res.player = (Player.mk 1 "Ann Lee").player_name ∧
      res.career.total_matches =
        (collectMatches c2FP (Player.mk 1 "Ann Lee").player_name).length ∧
      res.career.wins =
        ((collectMatches c2FP (Player.mk 1 "Ann Lee").player_name).filter
          fun mw => mw.2).length)) :=
  ⟨by decide,
    player_stats_collection_characterization c2Dim c2FP "ann" "t0"
      ⟨1, "Ann Lee"⟩ [⟨2, "Ann Lee"⟩] (by decide)⟩

/-! C5 — head-to-head win-count bound. -/

/-- The date-descending relation used by the sorts is total. -/
instance : IsTotal Enriched (fun a b => b.date ≤ a.date) :=
  ⟨fun a b => Nat.le_total b.date a.date⟩

/-- The date-descending relation used by the sorts is transitive. -/
instance : IsTrans Enriched (fun a b => b.date ≤ a.date) :=
  ⟨fun _ _ _ hab hbc => Nat.le_trans hbc hab⟩

/-- The sorted view is weakly descending by date. -/
theorem sortByDateDesc_sorted (l : List Enriched) :
    (sortByDateDesc l).Pairwise (fun a b => b.date ≤ a.date) :=
  List.sorted_insertionSort _ l

/-- Sorting by date permutes membership. -/
theorem mem_sortByDateDesc {x : Enriched} {l : List Enriched} :
    x ∈ sortByDateDesc l ↔ x ∈ l :=
  (List.perm_insertionSort _ l).mem_iff

/-- Dimension with a duplicated player name facing itself. -/
def c5Dim : List Player := [⟨1, "Ann Lee"⟩, ⟨2, "Ann Lee"⟩]

/-- One match between the two players that share the name "Ann Lee". -/
def c5Parts : List (Int × Int × List RawMatch) :=
  [(2020, 1, [⟨1, 2, 1, 7, 50, "1st Round", "6-4 6-4"⟩])]

/-- Enriched snapshot where both canonical head-to-head names coincide. -/
def c5FP : List Enriched :=
  match load_data c5Parts c5Dim c1Tournaments with
  | .ok df => df.rows
  | .error _ => []

/-- Counterexample to C5 as stated: when the two canonical display names are
equal, both tallies count the same winning rows, and
`p1_wins + p2_wins = 2 > 1 = total`. -/
theorem head_to_head_equal_names_break_bound :
    ¬ (∀ res, head_to_head c5FP "ann" "ann" "t0" = ApiResult.ok res →
        res.p1_wins + res.p2_wins ≤ res.total) := by
  intro hcl
  exact absurd (hcl _ rfl) (by decide)

/-- C5 (amended): whenever the two canonical display names taken from the
latest match differ, the head-to-head tallies satisfy
`p1_wins + p2_wins ≤ total`, since a row's `winner_name` can equal at most one
of two distinct names (and may equal neither). -/
theorem head_to_head_win_bound_distinct_names (fact_plus : List Enriched)
    (player1 player2 now : String) (res : H2HOk)
    (h : head_to_head fact_plus player1 player2 now = ApiResult.ok res)
    (hne : res.player_1 ≠ res.player_2) :
    res.p1_wins + res.p2_wins ≤ res.total := by
  simp only [head_to_head] at h
  cases hs : sortByDateDesc (List.filter (fun r =>
      (optContainsCI r.p1_name (urlDecode player1) &&
        optContainsCI r.p2_name (urlDecode player2)) ||
      (optContainsCI r.p1_name (urlDecode player2) &&
        optContainsCI r.p2_name (urlDecode player1))) fact_plus) with
  | nil =>
    simp only [hs] at h
    exact (ApiResult.noConfusion h)
  | cons first rest =>
    simp only [hs] at h
    injection h with h
    subst h
    dsimp only at hne ⊢
    refine length_filter_add_length_filter_le _ _ _ ?_
    rintro x ⟨hx1, hx2⟩
    exact hne ((beq_iff_eq.mp hx1).symm.trans (beq_iff_eq.mp hx2))

/-- Witness for the amended C5 on the Nadal–Federer snapshot. -/
theorem head_to_head_win_bound_distinct_names_witness :
    ∃ res, head_to_head exampleFP "nadal" "federer" "t0" = ApiResult.ok res ∧
      res.player_1 ≠ res.player_2 ∧ res.p1_wins + res.p2_wins ≤ res.total := by
  refine ⟨_, rfl, by decide, ?_⟩
  exact head_to_head_win_bound_distinct_names exampleFP "nadal" "federer" "t0" _ rfl
    (by decide)

/-! C7 — the tournament champion list. -/

/-- Three distinct players for the tied-finals dataset. -/
def c7Dim : List Player := [⟨1, "Ana"⟩, ⟨2, "Bea"⟩, ⟨3, "Cleo"⟩]

/-- One partition holding two finals of the same tournament on the same date. -/
def c7Parts : List (Int × Int × List RawMatch) :=
  [(2020, 1, [⟨1, 2, 1, 7, 50, "The Final", "6-0 6-0"⟩,
              ⟨3, 2, 3, 7, 50, "The Final", "6-1 6-1"⟩])]

/-- Enriched snapshot with two equal-date finals. -/
def c7FP : List Enriched :=
  match load_data c7Parts c7Dim c1Tournaments with
  | .ok df => df.rows
  | .error _ => []

/-- Counterexample to C7 as stated: with two finals on the same date the
champion list is not sorted *strictly* descending by date — the two returned
records carry equal dates. -/
theorem tournament_details_tied_dates_not_strictly_sorted :
    ¬ (∀ res, tournament_details c7FP "roland" "t0" = ApiResult.ok res →
        res.recent_champions.Pairwise (fun a b => b.year < a.year)) := by
  intro hcl
  exact absurd (hcl _ rfl) (by decide)

/-- C7 (amended): every successful `tournamentDetails` champion list has length
at most 10 and is the projection of a list of rows of the snapshot that all
match the queried tournament name, all have round "The Final", and are sorted
*weakly* descending by date (strictness can fail exactly on tied dates). -/
theorem tournament_details_champions_props (fact_plus : List Enriched)
    (name now : String) (res : TournamentOk)
    (h : tournament_details fact_plus name now = ApiResult.ok res) :
    res.recent_champions.length ≤ 10 ∧
    ∃ rows : List Enriched,
      res.recent_champions = rows.map champRecord ∧
      rows.Pairwise (fun a b => b.date ≤ a.date) ∧
      ∀ r ∈ rows, r ∈ fact_plus ∧
        optContainsCI r.tournament (urlDecode name) = true ∧ r.round = "The Final" := by
  simp only [tournament_details] at h
  cases hfil : List.filter (fun r => optContainsCI r.tournament (urlDecode name))
      fact_plus with
  | nil =>
    simp only [hfil] at h
    exact (ApiResult.noConfusion h)
  | cons first rest =>
    simp only [hfil] at h
    injection h with h
    subst h
    constructor
    · dsimp only
      rw [List.length_map, List.length_take]
      exact Nat.min_le_left _ _
    · refine ⟨(sortByDateDesc ((first :: rest).filter fun r =>
        r.round == "The Final")).take 10, rfl, ?_, ?_⟩
      · exact List.Pairwise.sublist (List.take_sublist _ _) (sortByDateDesc_sorted _)
      · intro r hr
        have hr1 : r ∈ sortByDateDesc ((first :: rest).filter fun r =>
            r.round == "The Final") := (List.take_sublist _ _).subset hr
        have hr2 := mem_sortByDateDesc.mp hr1
        rw [List.mem_filter] at hr2
        have hr3 : r ∈ List.filter (fun r => optContainsCI r.tournament (urlDecode name))
            fact_plus := by
          rw [hfil]
          exact hr2.1
        rw [List.mem_filter] at hr3
        exact ⟨hr3.1, hr3.2, beq_iff_eq.mp hr2.2⟩

/-- Witness for the amended C7 on the Nadal–Federer snapshot. -/
theorem tournament_details_champions_props_witness :
    ∃ res, tournament_details exampleFP "roland" "t0" = ApiResult.ok res ∧
      (res.recent_champions.length ≤ 10 ∧
       ∃ rows : List Enriched,
         res.recent_champions = rows.map champRecord ∧
         rows.Pairwise (fun a b => b.date ≤ a.date) ∧
         ∀ r ∈ rows, r ∈ exampleFP ∧
           optContainsCI r.tournament (urlDecode "roland") = true ∧
           r.round = "The Final") := by
  refine ⟨_, rfl, ?_⟩
  exact tournament_details_champions_props exampleFP "roland" "t0" _ rfl

/-! C6 — the surface breakdown of `playerStats`. -/

/-- Every emitted surface entry is keyed by a lowercased surface of the fixed
list and reports a positive match count. -/
theorem surfaceBreakdown_entries (all : List (Enriched × Bool)) (k : String)
    (st : SurfaceStat) (hmem : (k, st) ∈ surfaceBreakdown all) :
    k ∈ surfaceList.map lowerStr ∧ 0 < st.«matches» := by
  simp only [surfaceBreakdown, List.mem_filterMap] at hmem
  obtain ⟨s, hs, hf⟩ := hmem
  by_cases hlen : 0 < (all.filter fun mw => mw.1.surface == some s).length
  · rw [if_pos hlen] at hf
    injection hf with hf
    rw [Prod.mk.injEq] at hf
    obtain ⟨h1, h2⟩ := hf
    constructor
    · exact h1 ▸ List.mem_map.mpr ⟨s, hs, rfl⟩
    · rw [← h2]
      exact hlen
  · rw [if_neg hlen] at hf
    exact (Option.noConfusion hf)

/-- A lowercased surface key appears in the breakdown exactly when at least one
collected match was played on that surface. -/
theorem surfaceBreakdown_key_iff (all : List (Enriched × Bool)) (s : String)
    (hs : s ∈ surfaceList) :
    (∃ st, (lowerStr s, st) ∈ surfaceBreakdown all) ↔
      0 < (all.filter fun mw => mw.1.surface == some s).length := by
  constructor
  · rintro ⟨st, hmem⟩
    simp only [surfaceBreakdown, List.mem_filterMap] at hmem
    obtain ⟨s', hs', hf⟩ := hmem
    by_cases hlen : 0 < (all.filter fun mw => mw.1.surface == some s').length
    · rw [if_pos hlen] at hf
      injection hf with hf
      have h1 : lowerStr s' = lowerStr s := congrArg Prod.fst hf
      have hss : s' = s := by
        simp only [surfaceList, List.mem_cons, List.not_mem_nil, or_false] at hs hs'
        rcases hs with rfl | rfl | rfl <;> rcases hs' with rfl | rfl | rfl <;>
          first | rfl | exact absurd h1 (by decide)
      rw [← hss]
      exact hlen
    · rw [if_neg hlen] at hf
      exact (Option.noConfusion hf)
  · intro hlen
    refine ⟨⟨(all.filter fun mw => mw.1.surface == some s).length,
        ((all.filter fun mw => mw.1.surface == some s).filter fun mw => mw.2).length,
        (all.filter fun mw => mw.1.surface == some s).length -
          ((all.filter fun mw => mw.1.surface == some s).filter fun mw => mw.2).length,
        pyRound1
          (((((all.filter fun mw => mw.1.surface == some s).filter
                fun mw => mw.2).length : ℚ)) /
            (((all.filter fun mw => mw.1.surface == some s).length : ℚ)) * 100)⟩, ?_⟩
    simp only [surfaceBreakdown, List.mem_filterMap]
    refine ⟨s, hs, ?_⟩
    rw [if_pos hlen]

/-- C6: in every successful `playerStats` result the `by_surface` map has
entries only for (lowercased) surfaces of the fixed list Hard/Clay/Grass, a
surface key is present exactly when the player has at least one collected match
on that surface, and no entry reports zero matches. -/
theorem player_stats_surface_breakdown (dim_players : List Player)
    (fact_plus : List Enriched) (name now : String) (res : PlayerStatsOk)
    (h : player_stats dim_players fact_plus name now = ApiResult.ok res) :
    (∀ k st, (k, st) ∈ res.by_surface →
      k ∈ surfaceList.map lowerStr ∧ 0 < st.«matches») ∧
    (∀ s, s ∈ surfaceList →
      ((∃ st, (lowerStr s, st) ∈ res.by_surface) ↔
        0 < ((collectMatches fact_plus res.player).filter
          fun mw => mw.1.surface == some s).length)) := by
  simp only [player_stats] at h
  cases hfil : List.filter (fun p => strContainsCI p.player_name (urlDecode name))
      dim_players with
  | nil =>
    simp only [hfil] at h
    exact (ApiResult.noConfusion h)
  | cons m tail =>
    simp only [hfil] at h
    cases hcol : collectMatches fact_plus m.player_name with
    | nil =>
      simp only [hcol] at h
      exact (ApiResult.noConfusion h)
    | cons x xs =>
      simp only [hcol] at h
      injection h with h
      subst h
      constructor
      · intro k st hmem
        dsimp only at hmem
        exact surfaceBreakdown_entries _ k st hmem
      · intro s hs
        dsimp only
        rw [hcol]
        exact surfaceBreakdown_key_iff (x :: xs) s hs

/-- Witness for C6 on the concrete snapshot. -/
theorem player_stats_surface_breakdown_witness :
    ∃ res, player_stats c1Players exampleFP "nadal" "t0" = ApiResult.ok res ∧
      ((∀ k st, (k, st) ∈ res.by_surface →
        k ∈ surfaceList.map lowerStr ∧ 0 < st.«matches») ∧
      (∀ s, s ∈ surfaceList →
        ((∃ st, (lowerStr s, st) ∈ res.by_surface) ↔
          0 < ((collectMatches exampleFP res.player).filter
            fun mw => mw.1.surface == some s).length))) := by
  refine ⟨_, rfl, ?_⟩
  exact player_stats_surface_breakdown c1Players exampleFP "nadal" "t0" _ rfl

/-! C8 — the name-matching policy of the resolver. -/

/-- C8, policy evaluation at the failing input: under the documented
case-insensitive *literal substring* policy, the query "." matches no candidate
named "Rafael Nadal" (the dot is not a character of the name), so resolution
fails with NotFound.  The production code instead calls
`Series.str.contains(query, case=False)` with its default `regex=True`, for
which "." is a regex wildcard matching every non-empty name, so the same query
resolves to "Rafael Nadal" there — the code deviates from the documented
substring policy on regex metacharacters (and raises `re.error` on queries such
as "("). -/
theorem substring_policy_rejects_metachar_query :
    strContainsCI "Rafael Nadal" "." = false ∧
    player_stats c1Players exampleFP "." "t0" =
      ApiResult.notFound "Player . not found" := by
  exact ⟨by decide, by decide⟩

/-! C9 — determinism of the query operations. -/

/-- Replace the `generated_at` timestamp of a `playerStats` response by "". -/
def stripPS : ApiResult PlayerStatsOk → ApiResult PlayerStatsOk
  | ApiResult.ok r => ApiResult.ok { r with generated_at := "" }
  | ApiResult.notFound m => ApiResult.notFound m

/-- Replace the `generated_at` timestamp of a head-to-head response by "". -/
def stripH2H : ApiResult H2HOk → ApiResult H2HOk
  | ApiResult.ok r => ApiResult.ok { r with generated_at := "" }
  | ApiResult.notFound m => ApiResult.notFound m

/-- Replace the `generated_at` timestamp of a tournament response by "". -/
def stripTD : ApiResult TournamentOk → ApiResult TournamentOk
  | ApiResult.ok r => ApiResult.ok { r with generated_at := "" }
  | ApiResult.notFound m => ApiResult.notFound m

/-- The `generated_at` field of a successful `playerStats` response. -/
def psGeneratedAt : ApiResult PlayerStatsOk → Option String
  | ApiResult.ok r => some r.generated_at
  | ApiResult.notFound _ => none

/-- Counterexample to C9 as stated: two calls of `playerStats` on the same
snapshot with the same argument but at different times return different *full*
responses — the `generated_at` field records `datetime.now()`. -/
theorem player_stats_full_response_depends_on_call_time :
    player_stats c1Players exampleFP "nadal" "t1" ≠
      player_stats c1Players exampleFP "nadal" "t2" := by
  intro h
  have hg := congrArg psGeneratedAt h
  have h1 : psGeneratedAt (player_stats c1Players exampleFP "nadal" "t1") =
      some "t1" := rfl
  have h2 : psGeneratedAt (player_stats c1Players exampleFP "nadal" "t2") =
      some "t2" := rfl
  rw [h1, h2] at hg
  exact absurd hg (by decide)

/-- C9 (amended): modulo the `generated_at` timestamp, every query operation is
a pure function of the snapshot and its arguments — two calls of `playerStats`,
`headToHead` or `tournamentDetails` with the same snapshot and arguments at
different times agree on every other response field. -/
theorem queries_deterministic_modulo_timestamp (dim_players : List Player)
    (fact_plus : List Enriched) (nameQ q1 q2 nameT t t' : String) :
    stripPS (player_stats dim_players fact_plus nameQ t) =
      stripPS (player_stats dim_players fact_plus nameQ t') ∧
    stripH2H (head_to_head fact_plus q1 q2 t) =
      stripH2H (head_to_head fact_plus q1 q2 t') ∧
    stripTD (tournament_details fact_plus nameT t) =
      stripTD (tournament_details fact_plus nameT t') := by
  refine ⟨?_, ?_, ?_⟩
  · simp only [player_stats]
    cases hfil : List.filter (fun p => strContainsCI p.player_name (urlDecode nameQ))
        dim_players with
    | nil => rfl
    | cons m tail =>
      dsimp only
      cases hcol : collectMatches fact_plus m.player_name with
      | nil => rfl
      | cons x xs => rfl
  · simp only [head_to_head]
    cases hs : sortByDateDesc (List.filter (fun r =>
        (optContainsCI r.p1_name (urlDecode q1) &&
          optContainsCI r.p2_name (urlDecode q2)) ||
        (optContainsCI r.p1_name (urlDecode q2) &&
          optContainsCI r.p2_name (urlDecode q1))) fact_plus) with
    | nil => rfl
    | cons first rest => rfl
  · simp only [tournament_details]
    cases hfil : List.filter (fun r => optContainsCI r.tournament (urlDecode nameT))
        fact_plus with
    | nil => rfl
    | cons first rest => rfl
